import Mathlib

/-!
Verification of the metric scoring and aggregation engine of
`evaluate_metrics.py` (rootless vs rootful container comparison).

Python floats are modelled as exact rationals (`ℚ`); every claim under
scrutiny is about the exact arithmetic the documentation of the code
asserts (clamping, neutral defaults, weighted averaging), not about
rounding.  Fetch outcomes `(value, ok)` from `prom_query` are modelled
as an explicit structure; the repetition loop of `main` is modelled as
a fold over the list of per-metric inputs.
-/

namespace EvalMetrics

/-- Outcome of `prom_query`: `(value: float | None, ok: bool)`. -/
structure Fetch where
  value : Option ℚ
  ok : Bool
deriving DecidableEq, Repr

/-- One entry of the `metrics` configuration mapping:
name plus `{query, weight, direction}` (defaults applied by the caller:
`weight = 0.0`, `direction = "higher"`). -/
structure MetricSpec where
  name : String
  query : String
  weight : ℚ
  direction : String
deriving DecidableEq, Repr

/-- The classification thresholds from the configuration. -/
structure ThresholdSet where
  strong_rootless : ℚ
  mild_rootless : ℚ
  mild_rootful : ℚ
  strong_rootful : ℚ
deriving DecidableEq, Repr

/-- The function `compute_score(rootless, rootful, weight, direction)` from the source:
symmetric relative delta, zero-denominator guard, clamp to `[-1, 1]`,
negation for `direction == "lower"`, map to `50 + 50*rel`, clip to
`[0, 100]`, and multiply by the weight.  Returns `(rel, score * weight)`. -/
def compute_score (rootless rootful weight : ℚ) (direction : String) : ℚ × ℚ :=
  let denom := |rootless| + |rootful|
  let rel := if denom = 0 then (0 : ℚ)
    else max (-1) (min 1 ((rootless - rootful) / (denom / 2)))
  let rel := if direction = "lower" then -rel else rel
  let score := 50 + rel * 50
  let score := max 0 (min 100 score)
  (rel, score * weight)

/-- The per-metric record stored in `rep_metrics[name]`.  The Python dict
has different keys on the two branches; absent keys are `none` here. -/
structure MetricResult where
  rootless_value : Option ℚ
  rootful_value : Option ℚ
  direction : String
  weight : ℚ
  included : Bool
  reason : Option String
  normalized_delta : Option ℚ
  weighted_score_contrib : Option ℚ
deriving DecidableEq, Repr

/-- One loop iteration of the repetition body in `main`, lines 116-142:
given a spec and the two fetch outcomes, build the `MetricResult`.
On `not (rl_ok and rf_ok)` the metric is excluded with reason
"missing series"; otherwise `compute_score(rl_val or 0.0, rf_val or 0.0,
weight, direction)` is recorded as included. -/
def scoreMetric (spec : MetricSpec) (rl rf : Fetch) : MetricResult :=
  if rl.ok && rf.ok then
    let p := compute_score (rl.value.getD 0) (rf.value.getD 0) spec.weight spec.direction
    { rootless_value := rl.value
      rootful_value := rf.value
      direction := spec.direction
      weight := spec.weight
      included := true
      reason := none
      normalized_delta := some p.1
      weighted_score_contrib := some p.2 }
  else
    { rootless_value := rl.value
      rootful_value := rf.value
      direction := spec.direction
      weight := spec.weight
      included := false
      reason := some "missing series"
      normalized_delta := none
      weighted_score_contrib := none }

/-- The per-metric input of one repetition: the spec together with the
rootless and rootful fetch outcomes. -/
abbrev RepInput : Type := MetricSpec × Fetch × Fetch

/-- What one metric adds to the accumulators `(total_weight, weighted_sum)`
of the repetition loop: `(weight, contribution)` when both fetches
succeeded, `(0, 0)` when the metric is excluded (the `continue` branch). -/
def metricContribution (x : RepInput) : ℚ × ℚ :=
  if x.2.1.ok && x.2.2.ok then
    (x.1.weight, (compute_score (x.2.1.value.getD 0) (x.2.2.value.getD 0)
      x.1.weight x.1.direction).2)
  else (0, 0)

/-- The `total_weight` accumulated by the loop (`total_weight += weight` on
each included metric). -/
def totalWeight (inputs : List RepInput) : ℚ :=
  (inputs.map (fun x => (metricContribution x).1)).sum

/-- The `weighted_sum` accumulated by the loop (`weighted_sum += weighted` on
each included metric). -/
def weightedSum (inputs : List RepInput) : ℚ :=
  (inputs.map (fun x => (metricContribution x).2)).sum

/-- The verdict classification of `main`, lines 151-160: four threshold
comparisons in fixed order, first match wins, else "inconclusive". -/
def classify (t : ThresholdSet) (s : ℚ) : String :=
  if s ≥ t.strong_rootless then "strong prefer rootless"
  else if s ≥ t.mild_rootless then "mild prefer rootless"
  else if s ≤ t.strong_rootful then "strong prefer rootful"
  else if s ≤ t.mild_rootful then "mild prefer rootful"
  else "inconclusive"

/-- One entry of `runs`: the per-repetition result record. -/
structure RepetitionResult where
  metrics : List (String × MetricResult)
  weighted_score : ℚ
  verdict : String
  effective_weight : ℚ
deriving DecidableEq, Repr

/-- One full repetition of the outer loop of `main`, lines 107-169: score every
metric, aggregate `weighted_score = weighted_sum / total_weight` when
`total_weight > 0` else `50.0`, classify, and record
`effective_weight = total_weight`. -/
def runRepetition (t : ThresholdSet) (inputs : List RepInput) : RepetitionResult :=
  let tw := totalWeight inputs
  let ws := weightedSum inputs
  let weighted_score := if tw > 0 then ws / tw else 50
  { metrics := inputs.map (fun x => (x.1.name, scoreMetric x.1 x.2.1 x.2.2))
    weighted_score := weighted_score
    verdict := classify t weighted_score
    effective_weight := tw }

/-- Python `min` over a nonempty list, with the `50.0` default of the code on
an empty `scores` list (line 186). -/
def listMinD (l : List ℚ) : ℚ :=
  match l with
  | [] => 50
  | s :: ss => ss.foldl min s

/-- Python `max` over a nonempty list, with the `50.0` default of the code on
an empty `scores` list (line 187). -/
def listMaxD (l : List ℚ) : ℚ :=
  match l with
  | [] => 50
  | s :: ss => ss.foldl max s

/-- The stability summary of `main`, lines 174-190.  The code stores
`stddev = variance ** 0.5`; the exact content is the variance, kept here
as the `variance` field (its square root is irrational in general). -/
structure Summary where
  mean : ℚ
  variance : ℚ
  min_score : ℚ
  max_score : ℚ
  final_verdict : String
deriving DecidableEq, Repr

/-- Line 175: `scores = [r["weighted_score"] for r in runs]`. -/
def scoresOf (runs : List RepetitionResult) : List ℚ :=
  runs.map fun r => r.weighted_score

/-- Here `summarize` models lines 174-190 of `main`: mean, variance
(`stddev` is its square root), min, max of the per-repetition
`weighted_score` values, and `final_verdict = runs[-1]["verdict"]`,
with the empty-sequence defaults `50.0 / 0.0 / 50.0 / 50.0 /
"inconclusive"`. -/
def summarize (runs : List RepetitionResult) : Summary :=
  let scores := scoresOf runs
  let mean := if scores = [] then 50 else scores.sum / (scores.length : ℚ)
  let variance := if scores = [] then 0
    else (scores.map (fun s => (s - mean) ^ 2)).sum / (scores.length : ℚ)
  { mean := mean
    variance := variance
    min_score := listMinD scores
    max_score := listMaxD scores
    final_verdict := match runs.getLast? with
      | some r => r.verdict
      | none => "inconclusive" }

/-! ### Basic lemmas about `compute_score` -/

/-- The normalized delta returned by `compute_score` lies in `[-1, 1]`. -/
lemma compute_score_rel_bounds (a b w : ℚ) (d : String) :
    -1 ≤ (compute_score a b w d).1 ∧ (compute_score a b w d).1 ≤ 1 := by
  have h1 : ∀ x : ℚ, -1 ≤ max (-1) (min 1 x) := fun x => le_max_left _ _
  have h2 : ∀ x : ℚ, max (-1) (min 1 x) ≤ 1 :=
    fun x => max_le (by norm_num) (min_le_left _ _)
  simp only [compute_score]
  split_ifs with hd h0 h0
  · norm_num
  · refine ⟨?_, ?_⟩
    · simp
    · simpa using neg_le_neg (h1 ((a - b) / ((|a| + |b|) / 2)))
  · norm_num
  · exact ⟨h1 _, h2 _⟩

/-- The contribution returned by `compute_score` is the clamped score times
the weight, and the clamped score lies in `[0, 100]`: the contribution at
weight `1` is the unweighted score. -/
lemma compute_score_snd_eq (a b w : ℚ) (d : String) :
    (compute_score a b w d).2 = (compute_score a b 1 d).2 * w := by
  simp only [compute_score]
  split_ifs <;> ring

/-- The unweighted score (the contribution at weight `1`) lies in `[0, 100]`. -/
lemma compute_score_unweighted_bounds (a b : ℚ) (d : String) :
    0 ≤ (compute_score a b 1 d).2 ∧ (compute_score a b 1 d).2 ≤ 100 := by
  simp only [compute_score, mul_one]
  exact ⟨le_max_left _ _, max_le (by norm_num) (min_le_left _ _)⟩

/-- With a nonnegative weight, the contribution lies in `[0, 100 * weight]`. -/
lemma compute_score_contrib_bounds (a b w : ℚ) (d : String) (hw : 0 ≤ w) :
    0 ≤ (compute_score a b w d).2 ∧ (compute_score a b w d).2 ≤ 100 * w := by
  rw [compute_score_snd_eq]
  obtain ⟨h0, h100⟩ := compute_score_unweighted_bounds a b d
  exact ⟨mul_nonneg h0 hw, by nlinarith⟩

/-- C3: for every input with `weight ≥ 0`, `compute_score` returns a
normalized delta in `[-1, 1]`, its unweighted score (the contribution at
weight 1) is in `[0, 100]`, and the returned contribution equals that
score times the weight, hence lies in `[0, 100 × weight]`. -/
theorem compute_score_bounded (rootless rootful weight : ℚ) (direction : String)
    (hw : 0 ≤ weight) :
    -1 ≤ (compute_score rootless rootful weight direction).1 ∧
    (compute_score rootless rootful weight direction).1 ≤ 1 ∧
    0 ≤ (compute_score rootless rootful 1 direction).2 ∧
    (compute_score rootless rootful 1 direction).2 ≤ 100 ∧
    (compute_score rootless rootful weight direction).2 =
      (compute_score rootless rootful 1 direction).2 * weight ∧
    0 ≤ (compute_score rootless rootful weight direction).2 ∧
    (compute_score rootless rootful weight direction).2 ≤ 100 * weight := by
  obtain ⟨h1, h2⟩ := compute_score_rel_bounds rootless rootful weight direction
  obtain ⟨h3, h4⟩ := compute_score_unweighted_bounds rootless rootful direction
  obtain ⟨h5, h6⟩ := compute_score_contrib_bounds rootless rootful weight direction hw
  exact ⟨h1, h2, h3, h4, compute_score_snd_eq _ _ _ _, h5, h6⟩

/-- C3 witness: the extreme `rootless=1, rootful=0` (unclamped relative
delta 2) stays within all bounds at weight 3. -/
theorem compute_score_bounded_witness :
    (0 : ℚ) ≤ 3 ∧
    (-1 ≤ (compute_score 1 0 3 "higher").1 ∧
     (compute_score 1 0 3 "higher").1 ≤ 1 ∧
     0 ≤ (compute_score 1 0 1 "higher").2 ∧
     (compute_score 1 0 1 "higher").2 ≤ 100 ∧
     (compute_score 1 0 3 "higher").2 = (compute_score 1 0 1 "higher").2 * 3 ∧
     0 ≤ (compute_score 1 0 3 "higher").2 ∧
     (compute_score 1 0 3 "higher").2 ≤ 100 * 3) :=
  ⟨by norm_num, compute_score_bounded 1 0 3 "higher" (by norm_num)⟩

/-- C5: equal raw values (including both zero) give normalized delta `0`
and contribution `50 × weight`, for any direction string. -/
theorem compute_score_equal_values (x weight : ℚ) (direction : String) :
    compute_score x x weight direction = (0, 50 * weight) := by
  simp only [compute_score]
  split_ifs <;> norm_num [min_def, max_def]

/-- C6: `direction="lower"` yields exactly the negation of the
`direction="higher"` normalized delta on the same raw values. -/
theorem compute_score_lower_neg (a b w : ℚ) :
    (compute_score a b w "lower").1 = -((compute_score a b w "higher").1) := by
  simp only [compute_score, if_true]
  rw [if_neg (by decide : ¬("higher" : String) = "lower")]

/-! ### Field equations for `runRepetition` and `summarize` -/

lemma runRepetition_weighted_score (t : ThresholdSet) (inputs : List RepInput) :
    (runRepetition t inputs).weighted_score =
      if totalWeight inputs > 0 then weightedSum inputs / totalWeight inputs else 50 := rfl

lemma runRepetition_effective_weight (t : ThresholdSet) (inputs : List RepInput) :
    (runRepetition t inputs).effective_weight = totalWeight inputs := rfl

lemma runRepetition_verdict (t : ThresholdSet) (inputs : List RepInput) :
    (runRepetition t inputs).verdict =
      classify t (runRepetition t inputs).weighted_score := rfl

lemma runRepetition_metrics (t : ThresholdSet) (inputs : List RepInput) :
    (runRepetition t inputs).metrics =
      inputs.map (fun x => (x.1.name, scoreMetric x.1 x.2.1 x.2.2)) := rfl

/-! ### Verdict classification -/

/-- C4: the verdict is the first-match-wins chain over the four threshold
comparisons, in the fixed order strong rootless, mild rootless, strong
rootful, mild rootful, with "inconclusive" as the fall-through. -/
theorem classify_first_match (t : ThresholdSet) (s : ℚ) :
    (t.strong_rootless ≤ s → classify t s = "strong prefer rootless") ∧
    (¬ t.strong_rootless ≤ s → t.mild_rootless ≤ s →
      classify t s = "mild prefer rootless") ∧
    (¬ t.strong_rootless ≤ s → ¬ t.mild_rootless ≤ s → s ≤ t.strong_rootful →
      classify t s = "strong prefer rootful") ∧
    (¬ t.strong_rootless ≤ s → ¬ t.mild_rootless ≤ s → ¬ s ≤ t.strong_rootful →
      s ≤ t.mild_rootful → classify t s = "mild prefer rootful") ∧
    (¬ t.strong_rootless ≤ s → ¬ t.mild_rootless ≤ s → ¬ s ≤ t.strong_rootful →
      ¬ s ≤ t.mild_rootful → classify t s = "inconclusive") := by
  simp only [classify, ge_iff_le]
  refine ⟨fun h1 => ?_, fun h1 h2 => ?_, fun h1 h2 h3 => ?_,
    fun h1 h2 h3 h4 => ?_, fun h1 h2 h3 h4 => ?_⟩
  · rw [if_pos h1]
  · rw [if_neg h1, if_pos h2]
  · rw [if_neg h1, if_neg h2, if_pos h3]
  · rw [if_neg h1, if_neg h2, if_neg h3, if_pos h4]
  · rw [if_neg h1, if_neg h2, if_neg h3, if_neg h4]

/-- The thresholds of the worked scenario of the spec. -/
def demoThresholds : ThresholdSet :=
  { strong_rootless := 75, mild_rootless := 60, mild_rootful := 40, strong_rootful := 25 }

/-- C4 witness: score 72 with thresholds 75/60/40/25 falls through the
strong branch and matches the mild-rootless branch. -/
theorem classify_first_match_witness :
    ¬ demoThresholds.strong_rootless ≤ (72 : ℚ) ∧
    demoThresholds.mild_rootless ≤ (72 : ℚ) ∧
    classify demoThresholds 72 = "mild prefer rootless" :=
  ⟨by norm_num [demoThresholds], by norm_num [demoThresholds],
   (classify_first_match demoThresholds 72).2.1
     (by norm_num [demoThresholds]) (by norm_num [demoThresholds])⟩

/-- C10: because the strong comparisons are evaluated first, the mild
verdicts are unreachable whenever the mild threshold is not strictly on
the neutral side of the corresponding strong threshold. -/
theorem classify_mild_unreachable (t : ThresholdSet) (s : ℚ) :
    (t.strong_rootless ≤ t.mild_rootless →
      classify t s ≠ "mild prefer rootless") ∧
    (t.mild_rootful ≤ t.strong_rootful →
      classify t s ≠ "mild prefer rootful") := by
  simp only [classify, ge_iff_le]
  constructor <;> intro h <;> split_ifs with h1 h2 h3 h4 <;>
    first | decide | (exfalso; linarith)

/-- A ThresholdSet with `mild_rootless ≥ strong_rootless` and
`mild_rootful ≤ strong_rootful`: both mild verdicts are unreachable. -/
def collapsedThresholds : ThresholdSet :=
  { strong_rootless := 60, mild_rootless := 70, mild_rootful := 30, strong_rootful := 45 }

/-- C10 witness: with collapsed thresholds neither mild verdict appears,
checked at scores 65 and 40. -/
theorem classify_mild_unreachable_witness :
    collapsedThresholds.strong_rootless ≤ collapsedThresholds.mild_rootless ∧
    collapsedThresholds.mild_rootful ≤ collapsedThresholds.strong_rootful ∧
    classify collapsedThresholds 65 ≠ "mild prefer rootless" ∧
    classify collapsedThresholds 40 ≠ "mild prefer rootful" :=
  ⟨by norm_num [collapsedThresholds], by norm_num [collapsedThresholds],
   (classify_mild_unreachable collapsedThresholds 65).1
     (by norm_num [collapsedThresholds]),
   (classify_mild_unreachable collapsedThresholds 40).2
     (by norm_num [collapsedThresholds])⟩

/-! ### Missing-series exclusion and aggregation -/

/-- C1: a failed fetch on either side excludes the metric: `included=false`
with reason "missing series", the raw values are still recorded, the metric
adds zero to both `weighted_sum` and `total_weight` (so the
score and denominator are as if the metric were absent), and the repetition
still records a result for it. -/
theorem missing_series_excluded (t : ThresholdSet) (pre post : List RepInput)
    (spec : MetricSpec) (rl rf : Fetch)
    (h : ¬(rl.ok = true ∧ rf.ok = true)) :
    (scoreMetric spec rl rf).included = false ∧
    (scoreMetric spec rl rf).reason = some "missing series" ∧
    (scoreMetric spec rl rf).rootless_value = rl.value ∧
    (scoreMetric spec rl rf).rootful_value = rf.value ∧
    metricContribution (spec, rl, rf) = (0, 0) ∧
    totalWeight (pre ++ (spec, rl, rf) :: post) = totalWeight (pre ++ post) ∧
    weightedSum (pre ++ (spec, rl, rf) :: post) = weightedSum (pre ++ post) ∧
    (runRepetition t (pre ++ (spec, rl, rf) :: post)).weighted_score =
      (runRepetition t (pre ++ post)).weighted_score ∧
    (runRepetition t (pre ++ (spec, rl, rf) :: post)).effective_weight =
      (runRepetition t (pre ++ post)).effective_weight ∧
    (runRepetition t (pre ++ (spec, rl, rf) :: post)).metrics =
      (runRepetition t pre).metrics ++
        (spec.name, scoreMetric spec rl rf) :: (runRepetition t post).metrics := by
  have hb : ¬(rl.ok && rf.ok) = true := by
    simpa [Bool.and_eq_true] using h
  have hmc : metricContribution (spec, rl, rf) = (0, 0) := by
    simp only [metricContribution]
    rw [if_neg hb]
  have htw : totalWeight (pre ++ (spec, rl, rf) :: post) = totalWeight (pre ++ post) := by
    simp [totalWeight, hmc]
  have hws : weightedSum (pre ++ (spec, rl, rf) :: post) = weightedSum (pre ++ post) := by
    simp [weightedSum, hmc]
  refine ⟨?_, ?_, ?_, ?_, hmc, htw, hws, ?_, ?_, ?_⟩
  · simp only [scoreMetric]
    rw [if_neg hb]
  · simp only [scoreMetric]
    rw [if_neg hb]
  · simp only [scoreMetric]
    split_ifs <;> rfl
  · simp only [scoreMetric]
    split_ifs <;> rfl
  · rw [runRepetition_weighted_score, runRepetition_weighted_score, htw, hws]
  · rw [runRepetition_effective_weight, runRepetition_effective_weight, htw]
  · simp [runRepetition_metrics]

/-- A demo metric spec. -/
def demoSpec : MetricSpec :=
  { name := "cpu", query := "rate(container_cpu_usage_seconds_total[1m])",
    weight := 2, direction := "lower" }

/-- C1 witness: a metric whose rootful fetch failed (value obtained on the
rootless side only) is excluded with reason "missing series" and leaves the
repetition totals untouched. -/
theorem missing_series_excluded_witness :
    ¬((⟨some 5, true⟩ : Fetch).ok = true ∧ (⟨none, false⟩ : Fetch).ok = true) ∧
    ((scoreMetric demoSpec ⟨some 5, true⟩ ⟨none, false⟩).included = false ∧
     (scoreMetric demoSpec ⟨some 5, true⟩ ⟨none, false⟩).reason = some "missing series" ∧
     (scoreMetric demoSpec ⟨some 5, true⟩ ⟨none, false⟩).rootless_value = some 5 ∧
     (scoreMetric demoSpec ⟨some 5, true⟩ ⟨none, false⟩).rootful_value = none ∧
     metricContribution (demoSpec, ⟨some 5, true⟩, ⟨none, false⟩) = (0, 0) ∧
     totalWeight ([] ++ (demoSpec, ⟨some 5, true⟩, ⟨none, false⟩) :: []) =
       totalWeight ([] ++ []) ∧
     weightedSum ([] ++ (demoSpec, ⟨some 5, true⟩, ⟨none, false⟩) :: []) =
       weightedSum ([] ++ []) ∧
     (runRepetition demoThresholds
         ([] ++ (demoSpec, ⟨some 5, true⟩, ⟨none, false⟩) :: [])).weighted_score =
       (runRepetition demoThresholds ([] ++ [])).weighted_score ∧
     (runRepetition demoThresholds
         ([] ++ (demoSpec, ⟨some 5, true⟩, ⟨none, false⟩) :: [])).effective_weight =
       (runRepetition demoThresholds ([] ++ [])).effective_weight ∧
     (runRepetition demoThresholds
         ([] ++ (demoSpec, ⟨some 5, true⟩, ⟨none, false⟩) :: [])).metrics =
       (runRepetition demoThresholds []).metrics ++
         (demoSpec.name, scoreMetric demoSpec ⟨some 5, true⟩ ⟨none, false⟩) ::
           (runRepetition demoThresholds []).metrics) :=
  ⟨by simp, missing_series_excluded demoThresholds [] [] demoSpec
    ⟨some 5, true⟩ ⟨none, false⟩ (by simp)⟩

/-! ### Aggregate bounds (C2) -/

lemma metricContribution_fst_nonneg (x : RepInput) (hw : 0 ≤ x.1.weight) :
    0 ≤ (metricContribution x).1 := by
  unfold metricContribution
  split_ifs <;> simpa using hw

lemma metricContribution_snd_bounds (x : RepInput) (hw : 0 ≤ x.1.weight) :
    0 ≤ (metricContribution x).2 ∧
    (metricContribution x).2 ≤ 100 * (metricContribution x).1 := by
  unfold metricContribution
  split_ifs with hok
  · exact compute_score_contrib_bounds _ _ _ _ hw
  · norm_num

lemma totalWeight_nonneg (inputs : List RepInput)
    (hw : ∀ x ∈ inputs, 0 ≤ x.1.weight) : 0 ≤ totalWeight inputs := by
  induction inputs with
  | nil => simp [totalWeight]
  | cons x xs ih =>
    have hx := metricContribution_fst_nonneg x (hw x (by simp))
    have ihs := ih (fun y hy => hw y (by simp [hy]))
    simp only [totalWeight, List.map_cons, List.sum_cons] at *
    linarith

lemma weightedSum_bounds (inputs : List RepInput)
    (hw : ∀ x ∈ inputs, 0 ≤ x.1.weight) :
    0 ≤ weightedSum inputs ∧ weightedSum inputs ≤ 100 * totalWeight inputs := by
  induction inputs with
  | nil => simp [weightedSum, totalWeight]
  | cons x xs ih =>
    have hx := metricContribution_snd_bounds x (hw x (by simp))
    have ihs := ih (fun y hy => hw y (by simp [hy]))
    simp only [weightedSum, totalWeight, List.map_cons, List.sum_cons] at *
    constructor <;> [linarith [hx.1, ihs.1]; nlinarith [hx.2, ihs.2]]

/-- C2: the aggregate score of the repetition is `weighted_sum / total_weight`
when `total_weight > 0` and exactly `50` when `total_weight = 0`; and with
all configured weights nonnegative it lies in `[0, 100]`. -/
theorem weighted_score_aggregate (t : ThresholdSet) (inputs : List RepInput)
    (hw : ∀ x ∈ inputs, 0 ≤ x.1.weight) :
    (0 < totalWeight inputs →
      (runRepetition t inputs).weighted_score =
        weightedSum inputs / totalWeight inputs) ∧
    (totalWeight inputs = 0 → (runRepetition t inputs).weighted_score = 50) ∧
    0 ≤ (runRepetition t inputs).weighted_score ∧
    (runRepetition t inputs).weighted_score ≤ 100 := by
  obtain ⟨hws0, hws100⟩ := weightedSum_bounds inputs hw
  rw [runRepetition_weighted_score]
  by_cases hpos : 0 < totalWeight inputs
  · rw [if_pos hpos]
    refine ⟨fun _ => rfl, fun hz => absurd hz (by linarith), ?_, ?_⟩
    · exact div_nonneg hws0 (le_of_lt hpos)
    · rw [div_le_iff hpos]
      linarith
  · rw [if_neg hpos]
    exact ⟨fun hc => absurd hc hpos, fun _ => rfl, by norm_num, by norm_num⟩

/-- The second metric of the worked scenario of the spec. -/
def memSpec : MetricSpec :=
  { name := "mem", query := "container_memory_working_set_bytes",
    weight := 1, direction := "higher" }

/-- The per-metric inputs of the worked scenario of the spec: `cpu` (weight 2,
lower, 10 vs 20) and `mem` (weight 1, higher, 100 vs 100). -/
def demoInputs : List RepInput :=
  [(demoSpec, ⟨some 10, true⟩, ⟨some 20, true⟩),
   (memSpec, ⟨some 100, true⟩, ⟨some 100, true⟩)]

/-- C2 witness: the worked scenario of the spec has nonnegative weights and its
aggregate score obeys the division rule and the `[0, 100]` bounds. -/
theorem weighted_score_aggregate_witness :
    (∀ x ∈ demoInputs, 0 ≤ x.1.weight) ∧
    ((0 < totalWeight demoInputs →
       (runRepetition demoThresholds demoInputs).weighted_score =
         weightedSum demoInputs / totalWeight demoInputs) ∧
     (totalWeight demoInputs = 0 →
       (runRepetition demoThresholds demoInputs).weighted_score = 50) ∧
     0 ≤ (runRepetition demoThresholds demoInputs).weighted_score ∧
     (runRepetition demoThresholds demoInputs).weighted_score ≤ 100) :=
  ⟨by decide, weighted_score_aggregate demoThresholds demoInputs (by decide)⟩

/-! ### Order independence (C9) -/

/-- C9: permuting the metric specs (with their fetch outcomes) leaves the
aggregate score, the effective weight and the verdict unchanged. -/
theorem repetition_perm_invariant (t : ThresholdSet) (l1 l2 : List RepInput)
    (h : l1.Perm l2) :
    (runRepetition t l1).weighted_score = (runRepetition t l2).weighted_score ∧
    (runRepetition t l1).effective_weight =
      (runRepetition t l2).effective_weight ∧
    (runRepetition t l1).verdict = (runRepetition t l2).verdict := by
  have htw : totalWeight l1 = totalWeight l2 :=
    List.Perm.sum_eq (h.map fun x => (metricContribution x).1)
  have hws : weightedSum l1 = weightedSum l2 :=
    List.Perm.sum_eq (h.map fun x => (metricContribution x).2)
  have hsc : (runRepetition t l1).weighted_score =
      (runRepetition t l2).weighted_score := by
    rw [runRepetition_weighted_score, runRepetition_weighted_score, htw, hws]
  refine ⟨hsc, ?_, ?_⟩
  · rw [runRepetition_effective_weight, runRepetition_effective_weight, htw]
  · rw [runRepetition_verdict, runRepetition_verdict, hsc]

/-- C9 witness: reversing the two demo metrics changes neither the score,
nor the effective weight, nor the verdict. -/
theorem repetition_perm_invariant_witness :
    demoInputs.Perm demoInputs.reverse ∧
    ((runRepetition demoThresholds demoInputs).weighted_score =
       (runRepetition demoThresholds demoInputs.reverse).weighted_score ∧
     (runRepetition demoThresholds demoInputs).effective_weight =
       (runRepetition demoThresholds demoInputs.reverse).effective_weight ∧
     (runRepetition demoThresholds demoInputs).verdict =
       (runRepetition demoThresholds demoInputs.reverse).verdict) :=
  ⟨(List.reverse_perm demoInputs).symm,
   repetition_perm_invariant demoThresholds demoInputs demoInputs.reverse
     (List.reverse_perm demoInputs).symm⟩

/-! ### Folded min/max agree with the list extrema -/

lemma foldl_min_le_init (l : List ℚ) (s : ℚ) : l.foldl min s ≤ s := by
  induction l generalizing s with
  | nil => simp
  | cons a l ih => exact le_trans (ih (min s a)) (min_le_left s a)

lemma foldl_min_le_mem (l : List ℚ) : ∀ x ∈ l, ∀ s : ℚ, l.foldl min s ≤ x := by
  induction l with
  | nil => intro x hx; cases hx
  | cons a l ih =>
    intro x hx s
    rw [List.foldl_cons]
    rcases List.mem_cons.mp hx with rfl | hx'
    · exact le_trans (foldl_min_le_init l (min s x)) (min_le_right s x)
    · exact ih x hx' (min s a)

lemma foldl_min_mem (l : List ℚ) : ∀ s : ℚ, l.foldl min s ∈ s :: l := by
  induction l with
  | nil => intro s; simp
  | cons a l ih =>
    intro s
    rw [List.foldl_cons]
    rcases List.mem_cons.mp (ih (min s a)) with h | h
    · rcases min_choice s a with hm | hm
      · rw [h, hm]
        exact List.mem_cons_self _ _
      · rw [h, hm]
        exact List.mem_cons_of_mem _ (List.mem_cons_self _ _)
    · exact List.mem_cons_of_mem _ (List.mem_cons_of_mem _ h)

lemma foldl_max_init_le (l : List ℚ) (s : ℚ) : s ≤ l.foldl max s := by
  induction l generalizing s with
  | nil => simp
  | cons a l ih => exact le_trans (le_max_left s a) (ih (max s a))

lemma foldl_max_mem_le (l : List ℚ) : ∀ x ∈ l, ∀ s : ℚ, x ≤ l.foldl max s := by
  induction l with
  | nil => intro x hx; cases hx
  | cons a l ih =>
    intro x hx s
    rw [List.foldl_cons]
    rcases List.mem_cons.mp hx with rfl | hx'
    · exact le_trans (le_max_right s x) (foldl_max_init_le l (max s x))
    · exact ih x hx' (max s a)

lemma foldl_max_mem (l : List ℚ) : ∀ s : ℚ, l.foldl max s ∈ s :: l := by
  induction l with
  | nil => intro s; simp
  | cons a l ih =>
    intro s
    rw [List.foldl_cons]
    rcases List.mem_cons.mp (ih (max s a)) with h | h
    · rcases max_choice s a with hm | hm
      · rw [h, hm]
        exact List.mem_cons_self _ _
      · rw [h, hm]
        exact List.mem_cons_of_mem _ (List.mem_cons_self _ _)
    · exact List.mem_cons_of_mem _ (List.mem_cons_of_mem _ h)

lemma listMinD_mem (l : List ℚ) (h : l ≠ []) : listMinD l ∈ l := by
  cases l with
  | nil => exact absurd rfl h
  | cons s ss => exact foldl_min_mem ss s

lemma listMinD_le (l : List ℚ) (x : ℚ) (hx : x ∈ l) : listMinD l ≤ x := by
  cases l with
  | nil => cases hx
  | cons s ss =>
    rcases List.mem_cons.mp hx with rfl | hx'
    · exact foldl_min_le_init ss x
    · exact foldl_min_le_mem ss x hx' s

lemma listMaxD_mem (l : List ℚ) (h : l ≠ []) : listMaxD l ∈ l := by
  cases l with
  | nil => exact absurd rfl h
  | cons s ss => exact foldl_max_mem ss s

lemma listMaxD_ge (l : List ℚ) (x : ℚ) (hx : x ∈ l) : x ≤ listMaxD l := by
  cases l with
  | nil => cases hx
  | cons s ss =>
    rcases List.mem_cons.mp hx with rfl | hx'
    · exact foldl_max_init_le ss x
    · exact foldl_max_mem_le ss x hx' s

/-! ### Stability summary (C7) -/

lemma summarize_mean (runs : List RepetitionResult) :
    (summarize runs).mean = if scoresOf runs = [] then 50
      else (scoresOf runs).sum / ((scoresOf runs).length : ℚ) := rfl

lemma summarize_variance (runs : List RepetitionResult) :
    (summarize runs).variance = if scoresOf runs = [] then 0
      else ((scoresOf runs).map fun s => (s - (summarize runs).mean) ^ 2).sum /
        ((scoresOf runs).length : ℚ) := rfl

lemma summarize_min (runs : List RepetitionResult) :
    (summarize runs).min_score = listMinD (scoresOf runs) := rfl

lemma summarize_max (runs : List RepetitionResult) :
    (summarize runs).max_score = listMaxD (scoresOf runs) := rfl

lemma summarize_final_verdict (runs : List RepetitionResult) :
    (summarize runs).final_verdict = match runs.getLast? with
      | some r => r.verdict
      | none => "inconclusive" := rfl

lemma summarize_variance_nonneg (runs : List RepetitionResult) :
    0 ≤ (summarize runs).variance := by
  rw [summarize_variance]
  split_ifs with h
  · norm_num
  · refine div_nonneg (List.sum_nonneg ?_) (by positivity)
    intro x hx
    obtain ⟨s, _, rfl⟩ := List.mem_map.mp hx
    positivity

/-- C7: the stability summary has `mean` the average of the repetition
scores, `variance` the population variance (division by the count, not
count minus one) so that the stored `stddev` squares back to it, `min`
and `max` the sequence extrema, and `final_verdict` the verdict of the
last repetition; on an empty sequence the defaults are `50 / 0 / 50 /
50 / "inconclusive"`. -/
theorem summarize_spec (runs : List RepetitionResult) :
    (runs = [] →
      (summarize runs).mean = 50 ∧ (summarize runs).variance = 0 ∧
      (summarize runs).min_score = 50 ∧ (summarize runs).max_score = 50 ∧
      (summarize runs).final_verdict = "inconclusive") ∧
    (∀ hne : runs ≠ [],
      (summarize runs).mean = (scoresOf runs).sum / (runs.length : ℚ) ∧
      (summarize runs).variance =
        ((scoresOf runs).map fun s => (s - (summarize runs).mean) ^ 2).sum /
          (runs.length : ℚ) ∧
      0 ≤ (summarize runs).variance ∧
      Real.sqrt ((summarize runs).variance) *
          Real.sqrt ((summarize runs).variance) =
        ((summarize runs).variance : ℝ) ∧
      (summarize runs).min_score ∈ scoresOf runs ∧
      (∀ x ∈ scoresOf runs, (summarize runs).min_score ≤ x) ∧
      (summarize runs).max_score ∈ scoresOf runs ∧
      (∀ x ∈ scoresOf runs, x ≤ (summarize runs).max_score) ∧
      (summarize runs).final_verdict = (runs.getLast hne).verdict) := by
  constructor
  · rintro rfl
    exact ⟨rfl, rfl, rfl, rfl, rfl⟩
  · intro hne
    have hsne : scoresOf runs ≠ [] := by
      simpa [scoresOf] using hne
    have hlen : ((scoresOf runs).length : ℚ) = (runs.length : ℚ) := by
      simp [scoresOf]
    refine ⟨?_, ?_, summarize_variance_nonneg runs, ?_, ?_, ?_, ?_, ?_, ?_⟩
    · rw [summarize_mean, if_neg hsne, hlen]
    · rw [summarize_variance, if_neg hsne, hlen]
    · exact Real.mul_self_sqrt (by exact_mod_cast summarize_variance_nonneg runs)
    · rw [summarize_min]
      exact listMinD_mem _ hsne
    · intro x hx
      rw [summarize_min]
      exact listMinD_le _ x hx
    · rw [summarize_max]
      exact listMaxD_mem _ hsne
    · intro x hx
      rw [summarize_max]
      exact listMaxD_ge _ x hx
    · rw [summarize_final_verdict, List.getLast?_eq_getLast_of_ne_nil hne]

/-- Three repetitions with scores 60, 70, 80, as in the stability scenario
of the spec. -/
def demoRuns : List RepetitionResult :=
  [⟨[], 60, "inconclusive", 3⟩,
   ⟨[], 70, "mild prefer rootless", 3⟩,
   ⟨[], 80, "strong prefer rootless", 3⟩]

/-- C7 witness: on scores 60, 70, 80 the summary has mean 70, population
variance 200/3, min 60, max 80, and the final verdict of the third run. -/
theorem summarize_spec_witness :
    (summarize demoRuns).mean = 70 ∧
    (summarize demoRuns).variance = 200 / 3 ∧
    (summarize demoRuns).min_score = 60 ∧
    (summarize demoRuns).max_score = 80 ∧
    (summarize demoRuns).final_verdict = "strong prefer rootless" := by
  obtain ⟨hmean, hvar, hnn, hsqrt, hminmem, hminle, hmaxmem, hmaxle, hlast⟩ :=
    (summarize_spec demoRuns).2 (by simp [demoRuns])
  refine ⟨?_, ?_, ?_, ?_, ?_⟩
  · rw [hmean]
    norm_num [scoresOf, demoRuns]
  · rw [hvar, hmean]
    norm_num [scoresOf, demoRuns]
  · rw [summarize_min]
    norm_num [listMinD, scoresOf, demoRuns, min_def]
  · rw [summarize_max]
    norm_num [listMaxD, scoresOf, demoRuns, max_def]
  · rw [hlast]
    rfl

/-! ### Verdict monotonicity (C8) -/

lemma classify_eq_strong_rootless_iff (t : ThresholdSet) (s : ℚ) :
    classify t s = "strong prefer rootless" ↔ t.strong_rootless ≤ s := by
  simp only [classify, ge_iff_le]
  split_ifs with a1 a2 a3 a4
  · exact iff_of_true rfl a1
  · exact iff_of_false (by decide) (by tauto)
  · exact iff_of_false (by decide) (by tauto)
  · exact iff_of_false (by decide) (by tauto)
  · exact iff_of_false (by decide) (by tauto)

lemma classify_eq_mild_rootless_iff (t : ThresholdSet) (s : ℚ) :
    classify t s = "mild prefer rootless" ↔
      ¬ t.strong_rootless ≤ s ∧ t.mild_rootless ≤ s := by
  simp only [classify, ge_iff_le]
  split_ifs with a1 a2 a3 a4
  · exact iff_of_false (by decide) (by tauto)
  · exact iff_of_true rfl ⟨a1, a2⟩
  · exact iff_of_false (by decide) (by tauto)
  · exact iff_of_false (by decide) (by tauto)
  · exact iff_of_false (by decide) (by tauto)

lemma classify_eq_strong_rootful_iff (t : ThresholdSet) (s : ℚ) :
    classify t s = "strong prefer rootful" ↔
      ¬ t.strong_rootless ≤ s ∧ ¬ t.mild_rootless ≤ s ∧ s ≤ t.strong_rootful := by
  simp only [classify, ge_iff_le]
  split_ifs with a1 a2 a3 a4
  · exact iff_of_false (by decide) (by tauto)
  · exact iff_of_false (by decide) (by tauto)
  · exact iff_of_true rfl ⟨a1, a2, a3⟩
  · exact iff_of_false (by decide) (by tauto)
  · exact iff_of_false (by decide) (by tauto)

lemma classify_eq_mild_rootful_iff (t : ThresholdSet) (s : ℚ) :
    classify t s = "mild prefer rootful" ↔
      ¬ t.strong_rootless ≤ s ∧ ¬ t.mild_rootless ≤ s ∧
      ¬ s ≤ t.strong_rootful ∧ s ≤ t.mild_rootful := by
  simp only [classify, ge_iff_le]
  split_ifs with a1 a2 a3 a4
  · exact iff_of_false (by decide) (by tauto)
  · exact iff_of_false (by decide) (by tauto)
  · exact iff_of_false (by decide) (by tauto)
  · exact iff_of_true rfl ⟨a1, a2, a3, a4⟩
  · exact iff_of_false (by decide) (by tauto)

lemma classify_eq_inconclusive_iff (t : ThresholdSet) (s : ℚ) :
    classify t s = "inconclusive" ↔
      ¬ t.strong_rootless ≤ s ∧ ¬ t.mild_rootless ≤ s ∧
      ¬ s ≤ t.strong_rootful ∧ ¬ s ≤ t.mild_rootful := by
  simp only [classify, ge_iff_le]
  split_ifs with a1 a2 a3 a4
  · exact iff_of_false (by decide) (by tauto)
  · exact iff_of_false (by decide) (by tauto)
  · exact iff_of_false (by decide) (by tauto)
  · exact iff_of_false (by decide) (by tauto)
  · exact iff_of_true rfl ⟨a1, a2, a3, a4⟩

/-- The five verdicts ordered from most rootful-leaning (0) to most
rootless-leaning (4). -/
def verdictRank (v : String) : ℕ :=
  if v = "strong prefer rootful" then 0
  else if v = "mild prefer rootful" then 1
  else if v = "inconclusive" then 2
  else if v = "mild prefer rootless" then 3
  else 4

/-- A verdict preferring the rootful variant. -/
def rootfulLeaning (v : String) : Prop :=
  v = "strong prefer rootful" ∨ v = "mild prefer rootful"

/-- A verdict preferring the rootless variant. -/
def rootlessLeaning (v : String) : Prop :=
  v = "strong prefer rootless" ∨ v = "mild prefer rootless"

/-- The property asserted by the claim, for one threshold set: a score
increase can move the verdict from rootful-leaning to rootless-leaning
only if some score in between is classified "inconclusive". -/
def noSkipProperty (t : ThresholdSet) : Prop :=
  ∀ s1 s2 : ℚ, s1 ≤ s2 → rootfulLeaning (classify t s1) →
    rootlessLeaning (classify t s2) →
    ∃ s : ℚ, s1 ≤ s ∧ s ≤ s2 ∧ classify t s = "inconclusive"

/-- A threshold set with `mild_rootless < strong_rootful` (which the code
never validates against). -/
def skewedThresholds : ThresholdSet :=
  { strong_rootless := 200, mild_rootless := 4, mild_rootful := 0,
    strong_rootful := 5 }

/-- C8 counterexample: with the unordered `skewedThresholds` the verdict is
"strong prefer rootful" at 3 and "mild prefer rootless" at 4, yet no score
between 3 and 4 is classified "inconclusive" — the claim fails for a
ThresholdSet with no ordering assumed. -/
theorem noSkipProperty_counterexample : ¬ noSkipProperty skewedThresholds := by
  intro hmono
  have h3 : classify skewedThresholds 3 = "strong prefer rootful" := by
    rw [classify_eq_strong_rootful_iff]
    norm_num [skewedThresholds]
  have h4 : classify skewedThresholds 4 = "mild prefer rootless" := by
    rw [classify_eq_mild_rootless_iff]
    norm_num [skewedThresholds]
  obtain ⟨s, hs1, hs2, hs⟩ := hmono 3 4 (by norm_num) (Or.inl h3) (Or.inr h4)
  rw [classify_eq_inconclusive_iff] at hs
  have h5 : (5 : ℚ) < s := by
    simpa [skewedThresholds, not_le] using hs.2.2.1
  linarith

lemma classify_rank_mono (t : ThresholdSet) {s1 s2 : ℚ} (h : s1 ≤ s2) :
    verdictRank (classify t s1) ≤ verdictRank (classify t s2) := by
  unfold classify
  split_ifs <;> first | decide | (exfalso; linarith)

lemma classify_no_skip_of_ordered (t : ThresholdSet) {s1 s2 : ℚ} (h : s1 ≤ s2)
    (hord : max t.strong_rootful t.mild_rootful <
      min t.strong_rootless t.mild_rootless)
    (h1 : rootfulLeaning (classify t s1))
    (h2 : rootlessLeaning (classify t s2)) :
    ∃ s : ℚ, s1 ≤ s ∧ s ≤ s2 ∧ classify t s = "inconclusive" := by
  have hArf : t.strong_rootful ≤ max t.strong_rootful t.mild_rootful :=
    le_max_left _ _
  have hAmf : t.mild_rootful ≤ max t.strong_rootful t.mild_rootful :=
    le_max_right _ _
  have hBrl : min t.strong_rootless t.mild_rootless ≤ t.strong_rootless :=
    min_le_left _ _
  have hBml : min t.strong_rootless t.mild_rootless ≤ t.mild_rootless :=
    min_le_right _ _
  have hs1 : s1 ≤ max t.strong_rootful t.mild_rootful := by
    rcases h1 with h1 | h1
    · rw [classify_eq_strong_rootful_iff] at h1
      exact le_trans h1.2.2 hArf
    · rw [classify_eq_mild_rootful_iff] at h1
      exact le_trans h1.2.2.2 hAmf
  have hs2 : min t.strong_rootless t.mild_rootless ≤ s2 := by
    rcases h2 with h2 | h2
    · rw [classify_eq_strong_rootless_iff] at h2
      exact le_trans hBrl h2
    · rw [classify_eq_mild_rootless_iff] at h2
      exact le_trans hBml h2.2
  refine ⟨(max t.strong_rootful t.mild_rootful +
      min t.strong_rootless t.mild_rootless) / 2, by linarith, by linarith, ?_⟩
  rw [classify_eq_inconclusive_iff]
  exact ⟨not_le.mpr (by linarith), not_le.mpr (by linarith),
    not_le.mpr (by linarith), not_le.mpr (by linarith)⟩

/-- C8 (amended): increasing the score never makes the verdict more
rootful-leaning in the rank order strong rootful < mild rootful <
inconclusive < mild rootless < strong rootless; and when every rootful
threshold lies strictly below every rootless threshold, a rootful-leaning
verdict can turn rootless-leaning only past an "inconclusive" score. -/
theorem classify_monotone_amended (t : ThresholdSet) (s1 s2 : ℚ)
    (h : s1 ≤ s2) :
    verdictRank (classify t s1) ≤ verdictRank (classify t s2) ∧
    (max t.strong_rootful t.mild_rootful <
        min t.strong_rootless t.mild_rootless →
      rootfulLeaning (classify t s1) → rootlessLeaning (classify t s2) →
      ∃ s : ℚ, s1 ≤ s ∧ s ≤ s2 ∧ classify t s = "inconclusive") :=
  ⟨classify_rank_mono t h,
   fun hord h1 h2 => classify_no_skip_of_ordered t h hord h1 h2⟩

/-- C8 witness: with the demo thresholds (ordered), scores 30 and 80. -/
theorem classify_monotone_amended_witness :
    (30 : ℚ) ≤ 80 ∧
    (verdictRank (classify demoThresholds 30) ≤
       verdictRank (classify demoThresholds 80) ∧
     (max demoThresholds.strong_rootful demoThresholds.mild_rootful <
         min demoThresholds.strong_rootless demoThresholds.mild_rootless →
       rootfulLeaning (classify demoThresholds 30) →
       rootlessLeaning (classify demoThresholds 80) →
       ∃ s : ℚ, 30 ≤ s ∧ s ≤ 80 ∧ classify demoThresholds s = "inconclusive")) :=
  ⟨by norm_num, classify_monotone_amended demoThresholds 30 80 (by norm_num)⟩

end EvalMetrics
